import Mathlib

/-!
Verification of the SRS scheduling core of Deutsch-Flasher-ScrollView.

Shallow embedding conventions:
* JavaScript numbers are modelled as exact rationals `ℚ`.
* Timestamps are milliseconds since the epoch, as `ℚ`; `null` timestamps are
  `Option.none`.
* `Math.round x` is `⌊x + 1/2⌋` (JS rounds halves toward +∞).
* Functions of the source that read the ambient clock (`new Date()`) take the
  clock value as an explicit `now` argument.
-/

namespace SRS

/-- JS `Math.round`: round half toward positive infinity. -/
def jsRound (x : ℚ) : ℤ := ⌊x + 1/2⌋

/-- JS `x || d` on a number `x` that is not NaN: `d` when `x = 0`, else `x`. -/
def jsOr (x d : ℚ) : ℚ := if x = 0 then d else x

/-- Result record of `calculateNextInterval` in `srsAlgorithm.js`. -/
structure SRSResult where
  interval : ℚ
  easeFactor : ℚ
  consecutiveCorrect : ℚ
deriving DecidableEq, Repr

/-- `calculateNextInterval` from `src/srsAlgorithm.js`.
Quality 0 = Hard/Thumbs Down, 1 = Okay/Neutral, any other value takes the
"Learned/Thumbs Up" ease branch; the 1.3 interval boost fires exactly on
quality 2. -/
def calculateNextInterval (quality currentInterval easeFactor consecutiveCorrect : ℚ) :
    SRSResult :=
  let newEaseFactor : ℚ :=
    if quality = 0 then max (13/10) (easeFactor - 2/10)
    else if quality = 1 then max (13/10) (easeFactor - 5/100)
    else min (25/10) (easeFactor + 1/10)
  let p : ℚ × ℚ :=
    if quality = 0 then
      (1, 0)
    else
      let newConsecutiveCorrect := consecutiveCorrect + 1
      (if newConsecutiveCorrect = 1 then 1
       else if newConsecutiveCorrect = 2 then 6
       else if quality = 2 then ((jsRound (currentInterval * newEaseFactor * (13/10)) : ℤ) : ℚ)
       else ((jsRound (currentInterval * newEaseFactor) : ℤ) : ℚ),
       newConsecutiveCorrect)
  { interval := max 1 p.1, easeFactor := newEaseFactor, consecutiveCorrect := p.2 }

/-- A JS value reaching `calculateNextReviewDate`: a (finite) number, NaN, or a
non-number. -/
inductive JSVal where
  | num (x : ℚ)
  | nan
  | notNumber
deriving DecidableEq, Repr

def msPerDay : ℚ := 86400000

/-- `calculateNextReviewDate` from `src/srsAlgorithm.js`. The source takes only
`interval` and reads the ambient clock with `new Date()`; the ambient clock
value at call time is the explicit argument `now`. An interval that is not a
number, is NaN, or is negative is replaced by 1; then `Math.round interval`
days are added to `now`. -/
def calculateNextReviewDate (interval : JSVal) (now : ℚ) : ℚ :=
  let i : ℚ :=
    match interval with
    | .num x => if x < 0 then 1 else x
    | .nan => 1
    | .notNumber => 1
  now + ((jsRound i : ℤ) : ℚ) * msPerDay

/-- `isCardDue` from `src/srsAlgorithm.js`: a null `nextReviewDate` is due;
otherwise due when `now >= reviewDate`. -/
def isCardDue (nextReviewDate : Option ℚ) (now : ℚ) : Bool :=
  match nextReviewDate with
  | none => true
  | some d => decide (d ≤ now)

end SRS

/-- Claim C1: `calculateNextInterval` with quality 0 (the spec's AGAIN) resets
`interval` to 1 and `consecutiveCorrect` to 0, and sets
`easeFactor = max(1.3, easeFactor - 0.20)`, for every valid state. -/
theorem C1_again_lapse_reset (i e c : ℚ)
    (hi : 1 ≤ i) (he1 : 13/10 ≤ e) (he2 : e ≤ 25/10) (hc : 0 ≤ c) :
    SRS.calculateNextInterval 0 i e c =
      { interval := 1, easeFactor := max (13/10) (e - 2/10), consecutiveCorrect := 0 } := by
  simp [SRS.calculateNextInterval]

/-- Witness for C1 at the concrete state `(i, e, c) = (10, 2, 4)`. -/
theorem C1_again_lapse_reset_witness :
    SRS.calculateNextInterval 0 10 2 4 =
      { interval := 1, easeFactor := max (13/10) (2 - 2/10), consecutiveCorrect := 0 } :=
  C1_again_lapse_reset 10 2 4 (by norm_num) (by norm_num) (by norm_num) (by norm_num)

namespace SRS

/-- The scheduler step as written in the spec (§4.1): identical to
`calculateNextInterval` except that the 30% interval boost fires on quality 3
(the spec's EASY), not on quality 2 (the spec's GOOD). Used to compare the
spec's formula with the source. -/
def specNextInterval (quality currentInterval easeFactor consecutiveCorrect : ℚ) :
    SRSResult :=
  let newEaseFactor : ℚ :=
    if quality = 0 then max (13/10) (easeFactor - 2/10)
    else if quality = 1 then max (13/10) (easeFactor - 5/100)
    else min (25/10) (easeFactor + 1/10)
  let p : ℚ × ℚ :=
    if quality = 0 then
      (1, 0)
    else
      let newConsecutiveCorrect := consecutiveCorrect + 1
      (if newConsecutiveCorrect = 1 then 1
       else if newConsecutiveCorrect = 2 then 6
       else if quality = 3 then ((jsRound (currentInterval * newEaseFactor * (13/10)) : ℤ) : ℚ)
       else ((jsRound (currentInterval * newEaseFactor) : ℤ) : ℚ),
       newConsecutiveCorrect)
  { interval := max 1 p.1, easeFactor := newEaseFactor, consecutiveCorrect := p.2 }

theorem jsRound_one_le {x : ℚ} (hx : 1 ≤ x) : (1 : ℤ) ≤ jsRound x := by
  have : ((1 : ℤ) : ℚ) ≤ x + 1/2 := by push_cast; linarith
  exact Int.le_floor.mpr this

end SRS

/-- Claim C2, counterexample: At quality 3 (the spec's EASY), interval 10, ease
2.0, streak 2, the source multiplies by the ease factor alone and returns
interval 21, while the spec's formula applies the 30% boost and returns 27:
the boost fires on quality 2, not on quality 3 as the claim states. -/
theorem C2_boost_grade_counterexample :
    (SRS.calculateNextInterval 3 10 2 2).interval = 21 ∧
    (SRS.specNextInterval 3 10 2 2).interval = 27 ∧
    (SRS.calculateNextInterval 3 10 2 2).interval ≠ (SRS.specNextInterval 3 10 2 2).interval := by
  have h1 : SRS.jsRound 21 = 21 := by
    rw [SRS.jsRound]
    norm_num [Int.floor_eq_iff]
  have h2 : SRS.jsRound (273/10) = 27 := by
    rw [SRS.jsRound]
    norm_num [Int.floor_eq_iff]
  refine ⟨?_, ?_, ?_⟩ <;>
    simp [SRS.calculateNextInterval, SRS.specNextInterval] <;> norm_num [h1, h2]

set_option maxHeartbeats 1600000 in
/-- Claim C2, amended: For quality in {1, 2, 3} the source increments the streak
and produces interval 1 on streak 1, 6 on streak 2, and
`round(interval * newEaseFactor * boost)` from streak 3 on — but the 30% boost
fires exactly on quality 2 (the spec's GOOD / the source's "Learned" top
grade), not on quality 3; `newEaseFactor` is the ease factor already adjusted
for this rating. -/
theorem C2_graduated_steps_boost_on_two (q i e : ℚ) (n : ℕ)
    (hq : q = 1 ∨ q = 2 ∨ q = 3) (hi : 1 ≤ i) (he1 : 13/10 ≤ e) (he2 : e ≤ 25/10) :
    (SRS.calculateNextInterval q i e (n : ℚ)).consecutiveCorrect = (n : ℚ) + 1 ∧
    (SRS.calculateNextInterval q i e (n : ℚ)).easeFactor =
      (if q = 1 then max (13/10) (e - 5/100) else min (25/10) (e + 1/10)) ∧
    (n = 0 → (SRS.calculateNextInterval q i e (n : ℚ)).interval = 1) ∧
    (n = 1 → (SRS.calculateNextInterval q i e (n : ℚ)).interval = 6) ∧
    (2 ≤ n → (SRS.calculateNextInterval q i e (n : ℚ)).interval =
      ((SRS.jsRound (i * (if q = 1 then max (13/10) (e - 5/100) else min (25/10) (e + 1/10)) *
        (if q = 2 then 13/10 else 1)) : ℤ) : ℚ)) := by
  rcases hq with hq | hq | hq <;> subst hq
  · refine ⟨by norm_num [SRS.calculateNextInterval], by norm_num [SRS.calculateNextInterval],
      fun hn => by subst hn; norm_num [SRS.calculateNextInterval],
      fun hn => by subst hn; norm_num [SRS.calculateNextInterval], fun hn => ?_⟩
    have hne1 : (n : ℚ) + 1 ≠ 1 := by
      have : (1 : ℚ) ≤ (n : ℚ) := by exact_mod_cast Nat.one_le_iff_ne_zero.mpr (by omega)
      intro h; linarith
    have hne2 : (n : ℚ) + 1 ≠ 2 := by
      have : (2 : ℚ) ≤ (n : ℚ) := by exact_mod_cast hn
      intro h; linarith
    have hE : (13/10 : ℚ) ≤ max (13/10) (e - 5/100) := le_max_left _ _
    have harg : (1:ℚ) ≤ i * max (13/10) (e - 5/100) := by nlinarith
    simp only [SRS.calculateNextInterval]
    norm_num [hne1, hne2]
    norm_num at harg
    exact_mod_cast SRS.jsRound_one_le harg
  · refine ⟨by norm_num [SRS.calculateNextInterval], by norm_num [SRS.calculateNextInterval],
      fun hn => by subst hn; norm_num [SRS.calculateNextInterval],
      fun hn => by subst hn; norm_num [SRS.calculateNextInterval], fun hn => ?_⟩
    have hne1 : (n : ℚ) + 1 ≠ 1 := by
      have : (1 : ℚ) ≤ (n : ℚ) := by exact_mod_cast Nat.one_le_iff_ne_zero.mpr (by omega)
      intro h; linarith
    have hne2 : (n : ℚ) + 1 ≠ 2 := by
      have : (2 : ℚ) ≤ (n : ℚ) := by exact_mod_cast hn
      intro h; linarith
    have hE : (13/10 : ℚ) ≤ min (5/2) (e + 1/10) := le_min (by norm_num) (by linarith)
    have harg : (1:ℚ) ≤ i * min (5/2) (e + 1/10) * (13/10) := by nlinarith
    simp only [SRS.calculateNextInterval]
    norm_num [hne1, hne2]
    exact_mod_cast SRS.jsRound_one_le harg
  · refine ⟨by norm_num [SRS.calculateNextInterval], by norm_num [SRS.calculateNextInterval],
      fun hn => by subst hn; norm_num [SRS.calculateNextInterval],
      fun hn => by subst hn; norm_num [SRS.calculateNextInterval], fun hn => ?_⟩
    have hne1 : (n : ℚ) + 1 ≠ 1 := by
      have : (1 : ℚ) ≤ (n : ℚ) := by exact_mod_cast Nat.one_le_iff_ne_zero.mpr (by omega)
      intro h; linarith
    have hne2 : (n : ℚ) + 1 ≠ 2 := by
      have : (2 : ℚ) ≤ (n : ℚ) := by exact_mod_cast hn
      intro h; linarith
    have hE : (13/10 : ℚ) ≤ min (5/2) (e + 1/10) := le_min (by norm_num) (by linarith)
    have harg : (1:ℚ) ≤ i * min (5/2) (e + 1/10) := by nlinarith
    simp only [SRS.calculateNextInterval]
    norm_num [hne1, hne2]
    exact_mod_cast SRS.jsRound_one_le harg

/-- Witness for C2 at quality 2, interval 10, ease 2, streak 2: the streak
becomes 3, the ease factor 2.1, and the interval is boosted. -/
theorem C2_graduated_steps_boost_on_two_witness :
    (SRS.calculateNextInterval 2 10 2 ((2 : ℕ) : ℚ)).consecutiveCorrect = ((2 : ℕ) : ℚ) + 1 ∧
    (SRS.calculateNextInterval 2 10 2 ((2 : ℕ) : ℚ)).easeFactor =
      (if (2:ℚ) = 1 then max (13/10) (2 - 5/100) else min (25/10) (2 + 1/10)) ∧
    ((2:ℕ) = 0 → (SRS.calculateNextInterval 2 10 2 ((2 : ℕ) : ℚ)).interval = 1) ∧
    ((2:ℕ) = 1 → (SRS.calculateNextInterval 2 10 2 ((2 : ℕ) : ℚ)).interval = 6) ∧
    (2 ≤ (2:ℕ) → (SRS.calculateNextInterval 2 10 2 ((2 : ℕ) : ℚ)).interval =
      ((SRS.jsRound (10 * (if (2:ℚ) = 1 then max (13/10) (2 - 5/100) else min (25/10) (2 + 1/10)) *
        (if (2:ℚ) = 2 then 13/10 else 1)) : ℤ) : ℚ)) :=
  C2_graduated_steps_boost_on_two 2 10 2 2 (Or.inr (Or.inl rfl))
    (by norm_num) (by norm_num) (by norm_num)

namespace SRS

/-- Apply a sequence of quality ratings through `calculateNextInterval`,
threading the scheduling state, as the rating flow does one event at a time. -/
def applyRatings (qs : List ℚ) (s : SRSResult) : SRSResult :=
  qs.foldl (fun st q =>
    calculateNextInterval q st.interval st.easeFactor st.consecutiveCorrect) s

theorem easeFactor_step_bounds (q i e c : ℚ) (h1 : 13/10 ≤ e) (h2 : e ≤ 25/10) :
    13/10 ≤ (calculateNextInterval q i e c).easeFactor ∧
      (calculateNextInterval q i e c).easeFactor ≤ 25/10 := by
  simp only [calculateNextInterval]
  split_ifs with hq0 hq1
  · exact ⟨le_max_left _ _, max_le (by norm_num) (by linarith)⟩
  · exact ⟨le_max_left _ _, max_le (by norm_num) (by linarith)⟩
  · exact ⟨le_min (by norm_num) (by linarith), min_le_left _ _⟩

theorem easeFactor_fold_bounds (qs : List ℚ) (s : SRSResult)
    (h1 : 13/10 ≤ s.easeFactor) (h2 : s.easeFactor ≤ 25/10) :
    13/10 ≤ (applyRatings qs s).easeFactor ∧ (applyRatings qs s).easeFactor ≤ 25/10 := by
  induction qs generalizing s with
  | nil => exact ⟨h1, h2⟩
  | cons q qs ih =>
    have hstep := easeFactor_step_bounds q s.interval s.easeFactor s.consecutiveCorrect h1 h2
    exact ih _ hstep.1 hstep.2

end SRS

/-- Claim C3: The ease factor stays within [1.3, 2.5]: one update with any
quality in {0,1,2,3} keeps an in-bounds ease factor in bounds, and along any
sequence of rating updates starting in bounds it is in bounds at every step
(after every prefix of the sequence). -/
theorem C3_ease_factor_bounds (q i c : ℚ) (e : ℚ) (qs : List ℚ) (s : SRS.SRSResult)
    (hq : q = 0 ∨ q = 1 ∨ q = 2 ∨ q = 3)
    (hqs : ∀ x ∈ qs, x = 0 ∨ x = 1 ∨ x = 2 ∨ x = 3)
    (he1 : 13/10 ≤ e) (he2 : e ≤ 25/10)
    (hs1 : 13/10 ≤ s.easeFactor) (hs2 : s.easeFactor ≤ 25/10) :
    (13/10 ≤ (SRS.calculateNextInterval q i e c).easeFactor ∧
      (SRS.calculateNextInterval q i e c).easeFactor ≤ 25/10) ∧
    ∀ n : ℕ, 13/10 ≤ (SRS.applyRatings (qs.take n) s).easeFactor ∧
      (SRS.applyRatings (qs.take n) s).easeFactor ≤ 25/10 :=
  ⟨SRS.easeFactor_step_bounds q i e c he1 he2,
   fun n => SRS.easeFactor_fold_bounds (qs.take n) s hs1 hs2⟩

/-- Witness for C3: a lapse-heavy concrete sequence from the fresh state. -/
theorem C3_ease_factor_bounds_witness :
    (13/10 ≤ (SRS.calculateNextInterval 0 1 (25/10) 0).easeFactor ∧
      (SRS.calculateNextInterval 0 1 (25/10) 0).easeFactor ≤ 25/10) ∧
    ∀ n : ℕ, 13/10 ≤ (SRS.applyRatings (([0, 0, 2, 1, 0, 2] : List ℚ).take n)
        ⟨1, 25/10, 0⟩).easeFactor ∧
      (SRS.applyRatings (([0, 0, 2, 1, 0, 2] : List ℚ).take n) ⟨1, 25/10, 0⟩).easeFactor ≤ 25/10 :=
  C3_ease_factor_bounds 0 1 0 (25/10) [0, 0, 2, 1, 0, 2] ⟨1, 25/10, 0⟩
    (Or.inl rfl) (by decide)
    (by norm_num) (by norm_num) (by norm_num) (by norm_num)

/-- Claim C4: `calculateNextReviewDate` never fails: NaN, non-numeric, and
negative intervals are replaced by a 1-day interval, giving a timestamp exactly
1 day after the clock reading `now`; a valid non-negative interval gives `now`
plus `round(interval)` days. -/
theorem C4_invalid_interval_failsoft (now x y : ℚ) (hx : x < 0) (hy : 0 ≤ y) :
    SRS.calculateNextReviewDate .nan now = now + SRS.msPerDay ∧
    SRS.calculateNextReviewDate .notNumber now = now + SRS.msPerDay ∧
    SRS.calculateNextReviewDate (.num x) now = now + SRS.msPerDay ∧
    SRS.calculateNextReviewDate (.num y) now =
      now + ((SRS.jsRound y : ℤ) : ℚ) * SRS.msPerDay := by
  have h1 : SRS.jsRound 1 = 1 := by
    rw [SRS.jsRound]
    norm_num [Int.floor_eq_iff]
  refine ⟨?_, ?_, ?_, ?_⟩ <;>
    simp [SRS.calculateNextReviewDate, h1, hx, not_le.mpr hx, not_lt.mpr hy]

/-- Witness for C4 at `now = 0`, invalid interval −5, valid interval 5. -/
theorem C4_invalid_interval_failsoft_witness :
    SRS.calculateNextReviewDate .nan 0 = 0 + SRS.msPerDay ∧
    SRS.calculateNextReviewDate .notNumber 0 = 0 + SRS.msPerDay ∧
    SRS.calculateNextReviewDate (.num (-5)) 0 = 0 + SRS.msPerDay ∧
    SRS.calculateNextReviewDate (.num 5) 0 = 0 + ((SRS.jsRound 5 : ℤ) : ℚ) * SRS.msPerDay :=
  C4_invalid_interval_failsoft 0 (-5) 5 (by norm_num) (by norm_num)

/-- Claim C8, counterexample: In the source, `calculateNextReviewDate` takes only
the interval and reads the clock via `new Date()` inside the function body; the
clock reading is the `now` argument of the embedding. Two calls with the same
interval argument 5 at different ambient clock values return different
timestamps, so the result is not a function of the declared input alone and
the current time is not an injected parameter. -/
theorem C8_ambient_clock_counterexample :
    SRS.calculateNextReviewDate (.num 5) 0 ≠
      SRS.calculateNextReviewDate (.num 5) SRS.msPerDay := by
  have h5 : SRS.jsRound 5 = 5 := by
    rw [SRS.jsRound]
    norm_num [Int.floor_eq_iff]
  simp [SRS.calculateNextReviewDate, h5, SRS.msPerDay]

/-- Claim C8, amended: With the ambient clock reading modelled as the explicit
argument `now`, the offset `calculateNextReviewDate i now - now` is the same
for any two clock readings — the clock enters the result only as an additive
translation, the offset depends on the interval alone — and consequently equal
intervals and equal clock readings give equal timestamps. -/
theorem C8_determinism_given_clock (i : SRS.JSVal) (n1 n2 : ℚ) :
    SRS.calculateNextReviewDate i n1 - n1 = SRS.calculateNextReviewDate i n2 - n2 ∧
    (n1 = n2 → SRS.calculateNextReviewDate i n1 = SRS.calculateNextReviewDate i n2) := by
  have hoff : SRS.calculateNextReviewDate i n1 - n1 =
      SRS.calculateNextReviewDate i n2 - n2 := by
    simp only [SRS.calculateNextReviewDate]
    ring
  refine ⟨hoff, fun h => ?_⟩
  have h2 : SRS.calculateNextReviewDate i n1 - n1 =
      SRS.calculateNextReviewDate i n2 - n1 := by rw [hoff, h]
  linarith

/-- Witness for C8: at interval 5 the day offset is identical at clock reading
0 and one day later, and at interval NaN with the clock fixed at 42 the two
readings coincide. -/
theorem C8_determinism_given_clock_witness :
    (SRS.calculateNextReviewDate (.num 5) 0 - 0 =
      SRS.calculateNextReviewDate (.num 5) SRS.msPerDay - SRS.msPerDay) ∧
    SRS.calculateNextReviewDate .nan 42 = SRS.calculateNextReviewDate .nan 42 :=
  ⟨(C8_determinism_given_clock (.num 5) 0 SRS.msPerDay).1,
   (C8_determinism_given_clock .nan 42 42).2 rfl⟩

/-- The `status` field of a word: JS `null`, JS `undefined` (the value the
rating flow writes for a quality outside {0,1}), or one of the three string
statuses used by the views. -/
inductive Status where
  | jsNull
  | jsUndefined
  | learning
  | learned
  | review
deriving DecidableEq, Repr

/-- One vocabulary item with the scheduling fields of `InstagramView.jsx`. -/
structure Word where
  id : ℕ
  status : Status
  interval : ℚ
  easeFactor : ℚ
  consecutiveCorrect : ℚ
  nextReview : Option ℚ
  totalReviews : ℚ
  mistakeCount : ℚ
  lastReviewed : Option ℚ
  createdDate : ℚ
deriving DecidableEq, Repr

namespace InstagramView

open SRS

/-- A freshly created word of `InstagramView.jsx` (`initialWords`): no status,
never scheduled, default ease. -/
def mkInitialWord (id : ℕ) (createdDate : ℚ) : Word :=
  { id := id
    status := .jsNull
    interval := 1
    easeFactor := 25/10
    consecutiveCorrect := 0
    nextReview := none
    totalReviews := 0
    mistakeCount := 0
    lastReviewed := none
    createdDate := createdDate }

/-- `markCardAsViewed` from `InstagramView.jsx`: on the word whose id matches,
and only if its status is `null`, set status "learning" and stamp
`lastReviewed`; every other word, and a matching word with any other status,
is returned unchanged. -/
def markCardAsViewed (wordId : ℕ) (now : ℚ) (words : List Word) : List Word :=
  words.map fun word =>
    if word.id ≠ wordId then word
    else if word.status = .jsNull then
      { word with status := .learning, lastReviewed := some now }
    else word

/-- `updateWordWithSRS` from `InstagramView.jsx`. A toggle resets the status to
"learning" without touching the schedule; a normal rating maps quality 1 to
"learned", quality 0 to "review" (any other quality leaves the new status
`undefined`), bumps `totalReviews`, runs the SRS step, stamps the next review
date from the ambient clock `now`, and counts a mistake when `quality < 1`. -/
def updateWordWithSRS (wordId : ℕ) (quality : ℚ) (isToggle : Bool) (now : ℚ)
    (words : List Word) : List Word :=
  words.map fun word =>
    if word.id ≠ wordId then word
    else
      let newStatus : Status :=
        if isToggle then .learning
        else if quality = 1 then .learned
        else if quality = 0 then .review
        else .jsUndefined
      let updatedWord :=
        { word with
            status := newStatus
            lastReviewed := some now
            totalReviews := jsOr word.totalReviews 0 + 1 }
      if isToggle then updatedWord
      else
        let srsResult := calculateNextInterval quality (jsOr word.interval 1)
          (jsOr word.easeFactor (25/10)) (jsOr word.consecutiveCorrect 0)
        let nextReview := calculateNextReviewDate (.num srsResult.interval) now
        let updatedWord2 :=
          { updatedWord with
              interval := srsResult.interval
              nextReview := some nextReview
              consecutiveCorrect := srsResult.consecutiveCorrect
              easeFactor := srsResult.easeFactor }
        if quality < 1 then
          { updatedWord2 with mistakeCount := jsOr word.mistakeCount 0 + 1 }
        else updatedWord2

/-- `resetCardToLearning` from `InstagramView.jsx` (applied to a target id):
full wipe of the matching word back to the fresh state. -/
def resetCardToLearning (wordId : ℕ) (words : List Word) : List Word :=
  words.map fun word =>
    if word.id = wordId then
      { word with
          status := .jsNull
          consecutiveCorrect := 0
          mistakeCount := 0
          totalReviews := 0
          nextReview := none
          lastReviewed := none
          easeFactor := 25/10
          interval := 1 }
    else word

end InstagramView

namespace FlashCardApp

open SRS

/-- `updateWordWithSRS` from `FlashCardApp.jsx`: like the InstagramView
version but with no toggle path. -/
def updateWordWithSRS (wordId : ℕ) (quality : ℚ) (now : ℚ)
    (words : List Word) : List Word :=
  words.map fun word =>
    if word.id ≠ wordId then word
    else
      let newStatus : Status :=
        if quality = 1 then .learned
        else if quality = 0 then .review
        else .jsUndefined
      let updatedWord :=
        { word with
            status := newStatus
            lastReviewed := some now
            totalReviews := jsOr word.totalReviews 0 + 1 }
      let srsResult := calculateNextInterval quality (jsOr word.interval 1)
        (jsOr word.easeFactor (25/10)) (jsOr word.consecutiveCorrect 0)
      let nextReview := calculateNextReviewDate (.num srsResult.interval) now
      let updatedWord2 :=
        { updatedWord with
            interval := srsResult.interval
            nextReview := some nextReview
            consecutiveCorrect := srsResult.consecutiveCorrect
            easeFactor := srsResult.easeFactor }
      if quality < 1 then
        { updatedWord2 with mistakeCount := jsOr word.mistakeCount 0 + 1 }
      else updatedWord2

end FlashCardApp

/-- Claim C9: Frame property of a rating update: in both `InstagramView.jsx` and
`FlashCardApp.jsx`, `updateWordWithSRS` relates the input collection pointwise
to the output, and every word whose id differs from the target id comes out
as the identical, unchanged word. -/
theorem C9_update_frame (words : List Word) (wordId : ℕ) (quality : ℚ)
    (isToggle : Bool) (now : ℚ) :
    List.Forall₂ (fun w w2 => w.id ≠ wordId → w2 = w) words
      (InstagramView.updateWordWithSRS wordId quality isToggle now words) ∧
    List.Forall₂ (fun w w2 => w.id ≠ wordId → w2 = w) words
      (FlashCardApp.updateWordWithSRS wordId quality now words) := by
  constructor
  · rw [InstagramView.updateWordWithSRS, List.forall₂_map_right_iff, List.forall₂_same]
    intro w _ hw
    simp [hw]
  · rw [FlashCardApp.updateWordWithSRS, List.forall₂_map_right_iff, List.forall₂_same]
    intro w _ hw
    simp [hw]

/-- Claim C10: The first-exposure transition `markCardAsViewed` is idempotent
(two applications equal one, even at different clock readings); it leaves the
whole collection unchanged when the targeted word's status is not `null`; and
pointwise it never touches a scheduling field — interval, ease factor, streak,
next review, total reviews, mistake count — leaves non-targets and non-`null`
targets untouched, and moves a `null`-status target to "learning" with a
`lastReviewed` stamp. -/
theorem C10_mark_viewed_idempotent (wordId : ℕ) (now1 now2 : ℚ) (words : List Word) :
    InstagramView.markCardAsViewed wordId now2
        (InstagramView.markCardAsViewed wordId now1 words) =
      InstagramView.markCardAsViewed wordId now1 words ∧
    ((∀ w ∈ words, w.id = wordId → w.status ≠ Status.jsNull) →
      InstagramView.markCardAsViewed wordId now1 words = words) ∧
    List.Forall₂ (fun w w2 =>
        w2.interval = w.interval ∧ w2.easeFactor = w.easeFactor ∧
        w2.consecutiveCorrect = w.consecutiveCorrect ∧ w2.nextReview = w.nextReview ∧
        w2.totalReviews = w.totalReviews ∧ w2.mistakeCount = w.mistakeCount ∧
        (¬(w.id = wordId ∧ w.status = Status.jsNull) → w2 = w) ∧
        (w.id = wordId ∧ w.status = Status.jsNull →
          w2.status = Status.learning ∧ w2.lastReviewed = some now1))
      words (InstagramView.markCardAsViewed wordId now1 words) := by
  refine ⟨?_, ?_, ?_⟩
  · rw [InstagramView.markCardAsViewed, InstagramView.markCardAsViewed, List.map_map]
    apply List.map_congr_left
    intro w _
    by_cases hid : w.id = wordId
    · by_cases hst : w.status = Status.jsNull
      · simp [Function.comp, hid, hst]
      · simp [Function.comp, hid, hst]
    · simp [Function.comp, hid]
  · intro h
    rw [InstagramView.markCardAsViewed]
    refine (List.map_congr_left ?_).trans (List.map_id words)
    intro w hw
    by_cases hid : w.id = wordId
    · simp [hid, h w hw hid]
    · simp [hid]
  · rw [InstagramView.markCardAsViewed, List.forall₂_map_right_iff, List.forall₂_same]
    intro w _
    by_cases hid : w.id = wordId
    · by_cases hst : w.status = Status.jsNull
      · simp [hid, hst]
      · simp [hid, hst]
    · simp [hid]

/-- Witness for C10: a learned word is untouched by `markCardAsViewed`. -/
theorem C10_mark_viewed_idempotent_witness :
    InstagramView.markCardAsViewed 7 5
        [⟨7, Status.learned, 10, 2, 3, some 0, 5, 1, some 0, 0⟩] =
      [⟨7, Status.learned, 10, 2, 3, some 0, 5, 1, some 0, 0⟩] :=
  (C10_mark_viewed_idempotent 7 5 0
      [⟨7, Status.learned, 10, 2, 3, some 0, 5, 1, some 0, 0⟩]).2.1 (by decide)

/-- Claim C7, counterexample: The first-exposure view transition breaks the
claimed equivalence: a fresh word (status `null`, `totalReviews = 0`,
`nextReview = null`) passed through `markCardAsViewed` has status "learning"
while still having `totalReviews = 0` and `nextReview = null`, so
`status == NEW ⇔ totalReviews == 0 ∧ nextReview == null` fails right-to-left
after that operation. -/
theorem C7_new_status_iff_counterexample :
    ¬ ∀ w ∈ InstagramView.markCardAsViewed 1 5 [InstagramView.mkInitialWord 1 0],
        (w.status = Status.jsNull ↔ (w.totalReviews = 0 ∧ w.nextReview = none)) := by
  decide

/-- Claim C7, amended: The forward direction is an invariant: a word with status
`null` has `totalReviews = 0` and `nextReview = null`, and this is preserved by
`markCardAsViewed`, by `updateWordWithSRS` (any quality, toggle or not), and by
`resetCardToLearning`; it holds for freshly created words; and after a rating
update the targeted word's status is never `null` — an item that has ever been
rated is no longer NEW. -/
theorem C7_new_status_invariant (words : List Word) (wordId : ℕ) (quality : ℚ)
    (isToggle : Bool) (now now2 : ℚ)
    (h : ∀ w ∈ words, w.status = Status.jsNull → w.totalReviews = 0 ∧ w.nextReview = none) :
    (∀ w ∈ InstagramView.markCardAsViewed wordId now words,
      w.status = Status.jsNull → w.totalReviews = 0 ∧ w.nextReview = none) ∧
    (∀ w ∈ InstagramView.updateWordWithSRS wordId quality isToggle now2 words,
      w.status = Status.jsNull → w.totalReviews = 0 ∧ w.nextReview = none) ∧
    (∀ w ∈ InstagramView.resetCardToLearning wordId words,
      w.status = Status.jsNull → w.totalReviews = 0 ∧ w.nextReview = none) ∧
    (∀ (i : ℕ) (cd : ℚ), (InstagramView.mkInitialWord i cd).status = Status.jsNull ∧
      (InstagramView.mkInitialWord i cd).totalReviews = 0 ∧
      (InstagramView.mkInitialWord i cd).nextReview = none) ∧
    (∀ w ∈ InstagramView.updateWordWithSRS wordId quality isToggle now2 words,
      w.id = wordId → w.status ≠ Status.jsNull) := by
  refine ⟨?_, ?_, ?_, ?_, ?_⟩
  · intro w hw
    rw [InstagramView.markCardAsViewed, List.mem_map] at hw
    obtain ⟨v, hv, rfl⟩ := hw
    by_cases hid : v.id = wordId
    · by_cases hst : v.status = Status.jsNull
      · simp [hid, hst]
      · simpa [hid, hst] using h v hv
    · simpa [hid] using h v hv
  · intro w hw
    rw [InstagramView.updateWordWithSRS, List.mem_map] at hw
    obtain ⟨v, hv, rfl⟩ := hw
    by_cases hid : v.id = wordId
    · simp only [hid, ne_eq, not_true_eq_false, if_false]
      split_ifs <;> simp
    · simpa [hid] using h v hv
  · intro w hw
    rw [InstagramView.resetCardToLearning, List.mem_map] at hw
    obtain ⟨v, hv, rfl⟩ := hw
    by_cases hid : v.id = wordId
    · simp [hid]
    · simpa [hid] using h v hv
  · intro i cd
    simp [InstagramView.mkInitialWord]
  · intro w hw hid
    rw [InstagramView.updateWordWithSRS, List.mem_map] at hw
    obtain ⟨v, hv, rfl⟩ := hw
    by_cases hvid : v.id = wordId
    case pos =>
      simp only [hvid, ne_eq, not_true_eq_false, if_false]
      split_ifs <;> simp
    case neg =>
      simp only [ne_eq, hvid, not_false_eq_true, if_true] at hid

/-- Witness for C7 on a one-item collection holding a fresh word. -/
theorem C7_new_status_invariant_witness :
    (∀ w ∈ InstagramView.markCardAsViewed 3 5 [InstagramView.mkInitialWord 3 0],
      w.status = Status.jsNull → w.totalReviews = 0 ∧ w.nextReview = none) ∧
    (∀ w ∈ InstagramView.updateWordWithSRS 3 1 false 7 [InstagramView.mkInitialWord 3 0],
      w.status = Status.jsNull → w.totalReviews = 0 ∧ w.nextReview = none) ∧
    (∀ w ∈ InstagramView.resetCardToLearning 3 [InstagramView.mkInitialWord 3 0],
      w.status = Status.jsNull → w.totalReviews = 0 ∧ w.nextReview = none) ∧
    (∀ (i : ℕ) (cd : ℚ), (InstagramView.mkInitialWord i cd).status = Status.jsNull ∧
      (InstagramView.mkInitialWord i cd).totalReviews = 0 ∧
      (InstagramView.mkInitialWord i cd).nextReview = none) ∧
    (∀ w ∈ InstagramView.updateWordWithSRS 3 1 false 7 [InstagramView.mkInitialWord 3 0],
      w.id = 3 → w.status ≠ Status.jsNull) :=
  C7_new_status_invariant [InstagramView.mkInitialWord 3 0] 3 1 false 5 7 (by decide)

namespace InstagramView

open SRS

/-- The `overdue` filter of the stats pass in `InstagramView.jsx` (line 309):
`word.nextReview && new Date(word.nextReview) < today && word.totalReviews > 0`
with `today = new Date()`, i.e. a raw comparison against the current instant. -/
def overdueFilter (now : ℚ) (word : Word) : Bool :=
  match word.nextReview with
  | none => false
  | some d => decide (d < now) && decide (0 < word.totalReviews)

/-- The `due` filter of the stats pass in `InstagramView.jsx` (line 306). -/
def dueFilter (now : ℚ) (word : Word) : Bool :=
  match word.nextReview with
  | none => false
  | some d => decide (d ≤ now) && decide (0 < word.totalReviews)

/-- The stats record computed by `InstagramView.jsx` (lines 300–312). -/
structure Stats where
  newCount : ℕ
  learning : ℕ
  review : ℕ
  learned : ℕ
  due : ℕ
  overdue : ℕ
deriving DecidableEq, Repr

/-- `newStats` from `InstagramView.jsx`: one filter pass per counter, with
`today = new Date()` the current instant `now`. -/
def computeStats (words : List Word) (now : ℚ) : Stats :=
  { newCount := (words.filter fun w =>
      decide (w.status = Status.jsNull) || decide (w.totalReviews = 0)).length
    learning := (words.filter fun w => decide (w.status = Status.learning)).length
    review := (words.filter fun w => decide (w.status = Status.review)).length
    learned := (words.filter fun w => decide (w.status = Status.learned)).length
    due := (words.filter (dueFilter now)).length
    overdue := (words.filter (overdueFilter now)).length }

/-- Start of the current calendar day, at the date-only granularity of the
model (days as fixed `msPerDay` blocks): the spec's "date-only truncation". -/
def startOfDay (now : ℚ) : ℚ := ((⌊now / msPerDay⌋ : ℤ) : ℚ) * msPerDay

/-- Modelled from the spec: "overdue (totalReviews>0 and nextReview strictly
before the start of today)", using calendar-day truncation. -/
def specIsOverdue (now : ℚ) (word : Word) : Bool :=
  decide (0 < word.totalReviews) &&
    (match word.nextReview with
     | none => false
     | some d => decide (d < startOfDay now))

end InstagramView

/-- Claim C6, counterexample: A word reviewed before, scheduled for earlier
*today* (1 second after today's midnight, with `now` 2 seconds after
midnight), is counted overdue by the stats pass — the source compares the raw
timestamp against the current instant — while the spec's calendar-day rule
says it is not overdue, because its `nextReview` is not before the start of
today. -/
theorem C6_overdue_truncation_counterexample :
    (InstagramView.computeStats
      [⟨1, Status.learning, 1, 2, 1, some (SRS.msPerDay + 1000), 1, 0, none, 0⟩]
      (SRS.msPerDay + 2000)).overdue = 1 ∧
    InstagramView.specIsOverdue (SRS.msPerDay + 2000)
      ⟨1, Status.learning, 1, 2, 1, some (SRS.msPerDay + 1000), 1, 0, none, 0⟩ = false := by
  have hfl : (⌊(SRS.msPerDay + 2000) / SRS.msPerDay⌋ : ℤ) = 1 := by
    rw [SRS.msPerDay]
    norm_num [Int.floor_eq_iff]
  have hword : InstagramView.overdueFilter (SRS.msPerDay + 2000)
      ⟨1, Status.learning, 1, 2, 1, some (SRS.msPerDay + 1000), 1, 0, none, 0⟩ = true := by
    simp [InstagramView.overdueFilter]
    norm_num
  constructor
  · simp [InstagramView.computeStats, List.filter, hword]
  · simp [InstagramView.specIsOverdue, InstagramView.startOfDay, hfl, SRS.msPerDay]
    norm_num

/-- Claim C6, amended: `computeStats` counts a word as overdue exactly when it
has been reviewed at least once and its `nextReview` is non-null and strictly
before the current instant `now` — a raw timestamp comparison, not the
calendar-day truncation the claim states. -/
theorem C6_overdue_raw_timestamp (words : List Word) (now : ℚ) :
    (InstagramView.computeStats words now).overdue =
      words.countP (fun w => InstagramView.overdueFilter now w) ∧
    ∀ w : Word, InstagramView.overdueFilter now w = true ↔
      (0 < w.totalReviews ∧ ∃ d, w.nextReview = some d ∧ d < now) := by
  constructor
  · rw [InstagramView.computeStats, List.countP_eq_length_filter]
  · intro w
    rw [InstagramView.overdueFilter]
    cases h : w.nextReview with
    | none => simp [h]
    | some d =>
      simp [h, and_comm]

namespace InstagramView

open SRS

/-- The dueness test used inside the mode comparators of `InstagramView.jsx`
(`a.nextReview && new Date(a.nextReview) <= today`): unlike `isCardDue`, a
null `nextReview` is NOT due here. -/
def cmpIsDue (w : Word) (now : ℚ) : Bool :=
  match w.nextReview with
  | none => false
  | some d => decide (d ≤ now)

/-- The timestamp `new Date(w.nextReview)` in comparator branches; those
branches only run when both words are `cmpIsDue`, hence non-null. -/
def nrValue (w : Word) : ℚ := w.nextReview.getD 0

/-- The learning-mode comparator of `InstagramView.jsx` (lines 200–221):
due-first, then more-overdue-first among due, then lower ease first. -/
def learningCompare (now : ℚ) (a b : Word) : ℚ :=
  let aIsDue := cmpIsDue a now
  let bIsDue := cmpIsDue b now
  if aIsDue && !bIsDue then -1
  else if !aIsDue && bIsDue then 1
  else if aIsDue && bIsDue then (now - nrValue b) - (now - nrValue a)
  else jsOr a.easeFactor (25/10) - jsOr b.easeFactor (25/10)

/-- The review-mode comparator of `InstagramView.jsx` (lines 228–257):
due-first, then more mistakes first, then lower ease first (the same
difficulty key on both the due and the not-due side). -/
def reviewCompare (now : ℚ) (a b : Word) : ℚ :=
  let aIsDue := cmpIsDue a now
  let bIsDue := cmpIsDue b now
  if aIsDue && !bIsDue then -1
  else if !aIsDue && bIsDue then 1
  else if aIsDue && bIsDue then
    (if jsOr a.mistakeCount 0 ≠ jsOr b.mistakeCount 0 then
      jsOr b.mistakeCount 0 - jsOr a.mistakeCount 0
     else jsOr a.easeFactor (25/10) - jsOr b.easeFactor (25/10))
  else
    (if jsOr a.mistakeCount 0 ≠ jsOr b.mistakeCount 0 then
      jsOr b.mistakeCount 0 - jsOr a.mistakeCount 0
     else jsOr a.easeFactor (25/10) - jsOr b.easeFactor (25/10))

/-- The learned-mode comparator of `InstagramView.jsx` (lines 264–285):
due-first, then shorter interval first on both sides. -/
def learnedCompare (now : ℚ) (a b : Word) : ℚ :=
  let aIsDue := cmpIsDue a now
  let bIsDue := cmpIsDue b now
  if aIsDue && !bIsDue then -1
  else if !aIsDue && bIsDue then 1
  else if aIsDue && bIsDue then jsOr a.interval 1 - jsOr b.interval 1
  else jsOr a.interval 1 - jsOr b.interval 1

/-- JS `Array.prototype.sort` with a numeric comparator: for a consistent
comparator the ES spec requires the (stable) order in which `cmp a b <= 0`
holds pairwise; modelled as a stable merge sort on that relation. -/
def jsSortBy (cmp : Word → Word → ℚ) (l : List Word) : List Word :=
  l.mergeSort fun a b => decide (cmp a b ≤ 0)

/-- Learning-mode working set (`studyMode === "learning"`). -/
def buildWorkingSetLearning (words : List Word) (now : ℚ) : List Word :=
  jsSortBy (learningCompare now) (words.filter fun w => decide (w.status = Status.learning))

/-- Review-mode working set (`studyMode === "review"`). -/
def buildWorkingSetReview (words : List Word) (now : ℚ) : List Word :=
  jsSortBy (reviewCompare now) (words.filter fun w => decide (w.status = Status.review))

/-- Learned-mode working set (`studyMode === "learned"`). -/
def buildWorkingSetLearned (words : List Word) (now : ℚ) : List Word :=
  jsSortBy (learnedCompare now) (words.filter fun w => decide (w.status = Status.learned))

end InstagramView

namespace InstagramView

theorem lexDiffFlip_swap (x1 x2 y1 y2 : ℚ) :
    (if x2 = x1 then y2 - y1 else x1 - x2) = -(if x1 = x2 then y1 - y2 else x2 - x1) := by
  rcases eq_or_ne x1 x2 with hm | hm
  · rw [if_pos hm.symm, if_pos hm]
    ring
  · rw [if_neg fun h => hm h.symm, if_neg hm]
    ring

theorem lexDiffFlip_trans {x1 x2 x3 y1 y2 y3 : ℚ}
    (h1 : (if x1 = x2 then y1 - y2 else x2 - x1) ≤ 0)
    (h2 : (if x2 = x3 then y2 - y3 else x3 - x2) ≤ 0) :
    (if x1 = x3 then y1 - y3 else x3 - x1) ≤ 0 := by
  have H1 : x2 < x1 ∨ (x1 = x2 ∧ y1 - y2 ≤ 0) := by
    by_cases hA : x1 = x2
    · exact Or.inr ⟨hA, by simpa [hA] using h1⟩
    · rw [if_neg hA] at h1
      exact Or.inl (lt_of_le_of_ne (by linarith) fun h => hA h.symm)
  have H2 : x3 < x2 ∨ (x2 = x3 ∧ y2 - y3 ≤ 0) := by
    by_cases hB : x2 = x3
    · exact Or.inr ⟨hB, by simpa [hB] using h2⟩
    · rw [if_neg hB] at h2
      exact Or.inl (lt_of_le_of_ne (by linarith) fun h => hB h.symm)
  rcases H1 with h | ⟨e1, hy1⟩ <;> rcases H2 with h' | ⟨e2, hy2⟩ <;>
    split_ifs with hC <;> linarith

theorem learningCompare_swap (now : ℚ) (a b : Word) :
    learningCompare now b a = -(learningCompare now a b) := by
  rw [learningCompare, learningCompare]
  cases hA : cmpIsDue a now <;> cases hB : cmpIsDue b now <;> simp [hA, hB] <;> ring

theorem learningCompare_trans (now : ℚ) (a b c : Word)
    (h1 : learningCompare now a b ≤ 0) (h2 : learningCompare now b c ≤ 0) :
    learningCompare now a c ≤ 0 := by
  rw [learningCompare] at h1 h2 ⊢
  cases hA : cmpIsDue a now <;> cases hB : cmpIsDue b now <;> cases hC : cmpIsDue c now <;>
    simp [hA, hB, hC] at h1 h2 ⊢ <;> linarith

theorem learningCompare_notdue_due (now : ℚ) (a b : Word)
    (hA : cmpIsDue a now = false) (hB : cmpIsDue b now = true) :
    learningCompare now a b = 1 := by
  rw [learningCompare]
  simp [hA, hB]

theorem reviewCompare_swap (now : ℚ) (a b : Word) :
    reviewCompare now b a = -(reviewCompare now a b) := by
  rw [reviewCompare, reviewCompare]
  cases hA : cmpIsDue a now <;> cases hB : cmpIsDue b now <;>
    simp [hA, hB] <;>
    exact lexDiffFlip_swap (SRS.jsOr a.mistakeCount 0) (SRS.jsOr b.mistakeCount 0)
      (SRS.jsOr a.easeFactor (25/10)) (SRS.jsOr b.easeFactor (25/10))

theorem reviewCompare_trans (now : ℚ) (a b c : Word)
    (h1 : reviewCompare now a b ≤ 0) (h2 : reviewCompare now b c ≤ 0) :
    reviewCompare now a c ≤ 0 := by
  rw [reviewCompare] at h1 h2 ⊢
  cases hA : cmpIsDue a now <;> cases hB : cmpIsDue b now <;> cases hC : cmpIsDue c now <;>
    simp [hA, hB, hC] at h1 h2 ⊢ <;>
    first
      | linarith
      | exact lexDiffFlip_trans h1 h2

theorem reviewCompare_notdue_due (now : ℚ) (a b : Word)
    (hA : cmpIsDue a now = false) (hB : cmpIsDue b now = true) :
    reviewCompare now a b = 1 := by
  rw [reviewCompare]
  simp [hA, hB]

theorem learnedCompare_swap (now : ℚ) (a b : Word) :
    learnedCompare now b a = -(learnedCompare now a b) := by
  rw [learnedCompare, learnedCompare]
  cases hA : cmpIsDue a now <;> cases hB : cmpIsDue b now <;> simp [hA, hB] <;> ring

theorem learnedCompare_trans (now : ℚ) (a b c : Word)
    (h1 : learnedCompare now a b ≤ 0) (h2 : learnedCompare now b c ≤ 0) :
    learnedCompare now a c ≤ 0 := by
  rw [learnedCompare] at h1 h2 ⊢
  cases hA : cmpIsDue a now <;> cases hB : cmpIsDue b now <;> cases hC : cmpIsDue c now <;>
    simp [hA, hB, hC] at h1 h2 ⊢ <;> linarith

theorem learnedCompare_notdue_due (now : ℚ) (a b : Word)
    (hA : cmpIsDue a now = false) (hB : cmpIsDue b now = true) :
    learnedCompare now a b = 1 := by
  rw [learnedCompare]
  simp [hA, hB]

/-- A consistent comparator (antisymmetric and transitive) leaves the JS sort
pairwise ordered by `cmp · · ≤ 0`. -/
theorem jsSortBy_pairwise (cmp : Word → Word → ℚ)
    (hswap : ∀ a b, cmp b a = -(cmp a b))
    (htrans : ∀ a b c, cmp a b ≤ 0 → cmp b c ≤ 0 → cmp a c ≤ 0)
    (l : List Word) :
    (jsSortBy cmp l).Pairwise fun a b => cmp a b ≤ 0 := by
  have hs := @List.sorted_mergeSort Word (fun a b => decide (cmp a b ≤ 0))
    (fun a b c hab hbc =>
      decide_eq_true (htrans a b c (of_decide_eq_true hab) (of_decide_eq_true hbc)))
    (fun a b => by
      by_cases h : cmp a b ≤ 0
      · simp [h]
      · have hineq : cmp b a ≤ 0 := by
          rw [hswap]
          linarith [not_le.mp h]
        simp [hineq])
    l
  rw [jsSortBy]
  exact hs.imp fun hab => of_decide_eq_true hab

/-- A word in learning status scheduled in the future (not yet due), with a
low ease factor. -/
def exWordFuture : Word := ⟨1, Status.learning, 1, 3/2, 1, some 20, 1, 0, none, 0⟩

/-- A word in learning status that was viewed but never rated: `nextReview`
is null (due by `isCardDue`), default ease factor. -/
def exWordNullSched : Word := ⟨2, Status.learning, 1, 5/2, 1, none, 0, 0, none, 0⟩

end InstagramView

/-- Claim C5, counterexample: In learning mode at `now = 10`, a not-yet-due word
(scheduled at 20) with low ease is placed before a word whose `nextReview` is
null; the latter is due under the claim's dueness (`isDue`: null or past), the
former is not — so a not-due item precedes a due item. The comparator treats a
null `nextReview` as not due, unlike `isCardDue`. -/
theorem C5_null_nextReview_counterexample :
    InstagramView.buildWorkingSetLearning
      [InstagramView.exWordFuture, InstagramView.exWordNullSched] 10 =
      [InstagramView.exWordFuture, InstagramView.exWordNullSched] ∧
    SRS.isCardDue InstagramView.exWordNullSched.nextReview 10 = true ∧
    SRS.isCardDue InstagramView.exWordFuture.nextReview 10 = false := by
  refine ⟨?_, by simp [SRS.isCardDue, InstagramView.exWordNullSched],
    by norm_num [SRS.isCardDue, InstagramView.exWordFuture]⟩
  simp [InstagramView.buildWorkingSetLearning, InstagramView.jsSortBy, List.mergeSort,
    InstagramView.exWordFuture, InstagramView.exWordNullSched,
    InstagramView.learningCompare, InstagramView.cmpIsDue, SRS.jsOr]
  norm_num

/-- Claim C5, amended: Due-first ordering holds for the learning, review, and
learned working sets with dueness as the comparators define it
(`cmpIsDue`: `nextReview` non-null and `nextReview <= now`): whenever `a`
appears before `b` in the output and `b` is due or overdue, `a` is due or
overdue as well. -/
theorem C5_due_first_ordering (words : List Word) (now : ℚ) :
    (InstagramView.buildWorkingSetLearning words now).Pairwise
      (fun a b => InstagramView.cmpIsDue b now = true →
        InstagramView.cmpIsDue a now = true) ∧
    (InstagramView.buildWorkingSetReview words now).Pairwise
      (fun a b => InstagramView.cmpIsDue b now = true →
        InstagramView.cmpIsDue a now = true) ∧
    (InstagramView.buildWorkingSetLearned words now).Pairwise
      (fun a b => InstagramView.cmpIsDue b now = true →
        InstagramView.cmpIsDue a now = true) := by
  refine ⟨?_, ?_, ?_⟩
  · refine (InstagramView.jsSortBy_pairwise (InstagramView.learningCompare now)
      (InstagramView.learningCompare_swap now) (InstagramView.learningCompare_trans now)
      _).imp ?_
    intro a b hab hb
    cases haD : InstagramView.cmpIsDue a now with
    | true => rfl
    | false =>
      rw [InstagramView.learningCompare_notdue_due now a b haD hb] at hab
      linarith
  · refine (InstagramView.jsSortBy_pairwise (InstagramView.reviewCompare now)
      (InstagramView.reviewCompare_swap now) (InstagramView.reviewCompare_trans now)
      _).imp ?_
    intro a b hab hb
    cases haD : InstagramView.cmpIsDue a now with
    | true => rfl
    | false =>
      rw [InstagramView.reviewCompare_notdue_due now a b haD hb] at hab
      linarith
  · refine (InstagramView.jsSortBy_pairwise (InstagramView.learnedCompare now)
      (InstagramView.learnedCompare_swap now) (InstagramView.learnedCompare_trans now)
      _).imp ?_
    intro a b hab hb
    cases haD : InstagramView.cmpIsDue a now with
    | true => rfl
    | false =>
      rw [InstagramView.learnedCompare_notdue_due now a b haD hb] at hab
      linarith
